import Mathlib

/-!
Shallow embedding of the logs-dashboard API core (FastAPI + SQLAlchemy service
in `api/app`), covering the query/aggregation/pagination engine:

* `app/models/log.py` — the `LogEntry` entity and `SeverityLevel` enum;
* `app/crud/log.py` — `LogCRUD.get_multi`, `get_aggregation_data`,
  `get_for_export`, `update`, `create`;
* `app/validators/log_validators.py` — `validate_log_query_params`,
  `validate_log_creation`, `validate_log_update`;
* `app/api/v1/logs/read.py`, `analytics.py`, `utilities.py`, `create.py`,
  `update.py` — the endpoint handlers (`get_logs`, `get_log_aggregation`,
  `get_chart_data`, `export_logs_csv`, `create_log`, `update_log`) and the
  shared helpers (`validate_date_range`, `get_time_group_expression`,
  `format_chart_data`, `generate_csv_content`).

Modelling conventions: the entity store is a `List LogEntry` whose order is
the store-native row order; datetimes are `Int` epoch seconds (UTC); SQL
`ORDER BY` is modelled by an executable insertion sort (SQL guarantees no
particular tie order, the sort fixes one); SQL `GROUP BY` output order, which
is unspecified without `ORDER BY`, is fixed to enum declaration order for
severities and first-occurrence order for other keys; `ILIKE '%p%'` is
modelled as case-insensitive substring containment; Python `str.strip` /
`str.lower` are modelled by executable char-list functions.
-/

namespace LogsDashboard

/-- Severity enum from `app/models/log.py` (`SeverityLevel`), declaration
order DEBUG, INFO, WARNING, ERROR, CRITICAL. -/
inductive SeverityLevel where
  | DEBUG
  | INFO
  | WARNING
  | ERROR
  | CRITICAL
deriving DecidableEq, Repr

/-- String value of a severity level (the Python enum `.value`). -/
def SeverityLevel.value : SeverityLevel → String
  | .DEBUG => "DEBUG"
  | .INFO => "INFO"
  | .WARNING => "WARNING"
  | .ERROR => "ERROR"
  | .CRITICAL => "CRITICAL"

/-- Declaration-order ordinal of a severity level; the PostgreSQL enum type
created from `SeverityLevel` orders values by declaration order. -/
def SeverityLevel.position : SeverityLevel → Nat
  | .DEBUG => 0
  | .INFO => 1
  | .WARNING => 2
  | .ERROR => 3
  | .CRITICAL => 4

/-- All severity levels in declaration order. -/
def severityLevels : List SeverityLevel :=
  [.DEBUG, .INFO, .WARNING, .ERROR, .CRITICAL]

/-- Row of the `logs` table (`app/models/log.py`, class `LogEntry`).
Datetime columns are epoch seconds. -/
structure LogEntry where
  id : Nat
  timestamp : Int
  message : String
  severity : SeverityLevel
  source : String
  created_at : Int
  updated_at : Int
deriving DecidableEq, Repr

/-- The store is the list of rows in store-native order. -/
abbrev LogDb := List LogEntry

/-- Python `str.lower` (ASCII case folding, as used by SQL `ILIKE`
case-insensitivity in the model). -/
def lowerString (s : String) : String :=
  String.mk (s.data.map Char.toLower)

/-- Python `str.strip`: drop leading and trailing whitespace. -/
def stripString (s : String) : String :=
  String.mk
    (((s.data.dropWhile Char.isWhitespace).reverse.dropWhile
      Char.isWhitespace).reverse)

/-- Substring containment on char lists. -/
def containsSub (hay pat : List Char) : Bool :=
  hay.tails.any (fun t => pat.isPrefixOf t)

/-- Model of SQLAlchemy `column.ilike(f"%{pat}%")`: case-insensitive
substring containment. -/
def ilikeContains (field pat : String) : Bool :=
  containsSub (lowerString field).data (lowerString pat).data

/-- Ordered insertion used by the executable model of SQL `ORDER BY`. -/
def insertOrdered (le : α → α → Bool) (a : α) : List α → List α
  | [] => [a]
  | b :: l => if le a b then a :: b :: l else b :: insertOrdered le a l

/-- Model of SQL `ORDER BY` over a boolean preorder: insertion sort. -/
def orderBy (le : α → α → Bool) : List α → List α
  | [] => []
  | a :: l => insertOrdered le a (orderBy le l)

/-- Mapped column attributes of the `LogEntry` model class; the model of the
Python `hasattr(LogEntry, sort_by)` check in `LogCRUD.get_multi` (restricted
to the mapped columns of the entity). -/
def logEntryAttrs : List String :=
  ["id", "timestamp", "message", "severity", "source", "created_at",
   "updated_at"]

/-- Column comparison for `ORDER BY <sort_by> ASC` on the `logs` table.
String columns compare lexicographically, the severity enum by declaration
order. -/
def sortLe (sort_by : String) (a b : LogEntry) : Bool :=
  if sort_by = "id" then decide (a.id ≤ b.id)
  else if sort_by = "timestamp" then decide (a.timestamp ≤ b.timestamp)
  else if sort_by = "message" then decide (a.message ≤ b.message)
  else if sort_by = "severity" then
    decide (a.severity.position ≤ b.severity.position)
  else if sort_by = "source" then decide (a.source ≤ b.source)
  else if sort_by = "created_at" then decide (a.created_at ≤ b.created_at)
  else if sort_by = "updated_at" then decide (a.updated_at ≤ b.updated_at)
  else true

/-- Configured default page size (`app/core/config.py`, `DEFAULT_PAGE_SIZE`). -/
def DEFAULT_PAGE_SIZE : Int := 50

/-- Configured maximum page size (`app/core/config.py`, `MAX_PAGE_SIZE`). -/
def MAX_PAGE_SIZE : Int := 1000

/-- Filter chain of `LogCRUD.get_multi` (`app/crud/log.py` lines 49-61):
severity equality, source `ILIKE` substring, timestamp lower and upper
bounds (inclusive), message `ILIKE` search — each applied only when the
parameter is truthy in Python (`None` is falsy, and so is the empty
string for `source` / `search`). -/
def logQueryFiltered (db : LogDb) (severity : Option SeverityLevel)
    (source : Option String) (start_date end_date : Option Int)
    (search : Option String) : List LogEntry :=
  let query := db
  let query := match severity with
    | some s => query.filter (fun e => decide (e.severity = s))
    | none => query
  let query := match source with
    | some s => if s = "" then query
        else query.filter (fun e => ilikeContains e.source s)
    | none => query
  let query := match start_date with
    | some d => query.filter (fun e => decide (d ≤ e.timestamp))
    | none => query
  let query := match end_date with
    | some d => query.filter (fun e => decide (e.timestamp ≤ d))
    | none => query
  let query := match search with
    | some s => if s = "" then query
        else query.filter (fun e => ilikeContains e.message s)
    | none => query
  query

/-- Sort block of `LogCRUD.get_multi` (`app/crud/log.py` lines 66-72):
when `hasattr(LogEntry, sort_by)` holds, order by the named column —
descending exactly when `sort_order == "desc"`, ascending for any other
value; when the attribute check fails, no ordering is applied at all and
the store-native order is kept. -/
def sortedLogQuery (db : LogDb) (severity : Option SeverityLevel)
    (source : Option String) (start_date end_date : Option Int)
    (search : Option String) (sort_by sort_order : String) :
    List LogEntry :=
  let query := logQueryFiltered db severity source start_date end_date search
  if logEntryAttrs.contains sort_by then
    if sort_order = "desc" then
      orderBy (fun a b => sortLe sort_by b a) query
    else
      orderBy (sortLe sort_by) query
  else query

/-- Model of `LogCRUD.get_multi` (`app/crud/log.py` lines 33-78): filter,
count the total before pagination, apply the sort block, then
`offset = (page - 1) * page_size` and `limit page_size`. -/
def get_multi (db : LogDb) (page page_size : Int)
    (severity : Option SeverityLevel) (source : Option String)
    (start_date end_date : Option Int) (search : Option String)
    (sort_by sort_order : String) : List LogEntry × Nat :=
  let total :=
    (logQueryFiltered db severity source start_date end_date search).length
  let query := sortedLogQuery db severity source start_date end_date search
    sort_by sort_order
  let offset := ((page - 1) * page_size).toNat
  ((query.drop offset).take page_size.toNat, total)

/-- Failure taxonomy of the API (`app/core/errors.py`): input validation
failures (both FastAPI request-validation rejections and `ValidationError`
raised by `app/validators`), not-found, and store failures. -/
inductive ApiFailure where
  | validation
  | notFound
  | database
deriving DecidableEq, Repr

/-- Model of `validate_log_query_params` (`app/validators/log_validators.py`
lines 173-221): collects an error record for `page < 1`, for
`page_size < 1`, and for a supplied date range with `start_date > end_date`;
the caller raises `ValidationError` exactly when the list is non-empty. -/
def validate_log_query_params (page page_size : Int)
    (start_date end_date : Option Int) : List String :=
  let errors : List String := []
  let errors := if page < 1 then errors ++ ["Page number must be >= 1"]
    else errors
  let errors := if page_size < 1 then
      errors ++ ["Page size must be >= 1"]
    else errors
  let errors := match start_date, end_date with
    | some s, some e =>
        if s > e then errors ++ ["Start date must be before end date"]
        else errors
    | _, _ => errors
  errors

/-- FastAPI parameter constraints declared on the list route
(`app/api/v1/logs/read.py` lines 26-34): `page ≥ 1`,
`1 ≤ page_size ≤ MAX_PAGE_SIZE`, and `sort_order` matching
`^(asc|desc)$`; violating any of them rejects the request before the
handler body runs. -/
def listRouteParamsOk (page page_size : Int) (sort_order : String) : Bool :=
  decide (1 ≤ page) && decide (1 ≤ page_size) &&
    decide (page_size ≤ MAX_PAGE_SIZE) &&
    (sort_order = "asc" || sort_order = "desc")

/-- Paginated list payload (`LogListResponse` in `app/schemas/log.py`). -/
structure LogListResponse where
  logs : List LogEntry
  total : Nat
  page : Int
  page_size : Int
  total_pages : Nat
deriving DecidableEq, Repr

/-- Ceiling division used to model Python `math.ceil(total / page_size)`
for positive `page_size` (exact-real model of the float division). -/
def ceilDivNat (a b : Nat) : Nat := (a + b - 1) / b

/-- Model of the `get_logs` handler (`app/api/v1/logs/read.py` lines 24-67):
FastAPI route constraints, then `validate_log_query_params`, then
`LogCRUD.get_multi`, then `total_pages = ceil(total / page_size)` when
`total > 0` else `1`. Validation precedes the query: a validation failure
returns before `get_multi` is consulted. -/
def get_logs (db : LogDb) (page page_size : Int)
    (severity : Option SeverityLevel) (source : Option String)
    (start_date end_date : Option Int) (search : Option String)
    (sort_by sort_order : String) : Except ApiFailure LogListResponse :=
  if ¬ listRouteParamsOk page page_size sort_order then
    .error .validation
  else if validate_log_query_params page page_size start_date end_date ≠ []
  then .error .validation
  else
    let r := get_multi db page page_size severity source start_date end_date
      search sort_by sort_order
    let total := r.2
    let total_pages := if 0 < total then ceilDivNat total page_size.toNat
      else 1
    .ok ⟨r.1, total, page, page_size, total_pages⟩

/-- Severity group row of the aggregation result. -/
structure SeverityCount where
  severity : SeverityLevel
  count : Nat
deriving DecidableEq, Repr

/-- Source group row of the aggregation result. -/
structure SourceCount where
  source : String
  count : Nat
deriving DecidableEq, Repr

/-- Calendar-date group row of the aggregation result; the date is the epoch
day number (model of SQL `date(timestamp)`). -/
structure DateCount where
  date : Int
  count : Nat
deriving DecidableEq, Repr

/-- Aggregation payload of `LogCRUD.get_aggregation_data`. -/
structure AggregationData where
  total_logs : Nat
  by_severity : List SeverityCount
  by_source : List SourceCount
  by_date : List DateCount
deriving DecidableEq, Repr

/-- Filter chain shared by `LogCRUD.get_aggregation_data` (`app/crud/log.py`
lines 121-128) and the chart handler (`app/api/v1/logs/analytics.py` lines
82-91): start date, end date, severity, source — in that order, and with no
`search` filter. -/
def aggBaseQuery (db : LogDb) (start_date end_date : Option Int)
    (severity : Option SeverityLevel) (source : Option String) :
    List LogEntry :=
  let base := db
  let base := match start_date with
    | some d => base.filter (fun e => decide (d ≤ e.timestamp))
    | none => base
  let base := match end_date with
    | some d => base.filter (fun e => decide (e.timestamp ≤ d))
    | none => base
  let base := match severity with
    | some s => base.filter (fun e => decide (e.severity = s))
    | none => base
  let base := match source with
    | some s => if s = "" then base
        else base.filter (fun e => ilikeContains e.source s)
    | none => base
  base

/-- Model of `LogCRUD.get_aggregation_data` (`app/crud/log.py` lines
107-168): under the filter chain, the total count, counts grouped by
severity, counts grouped by source ordered by count descending and capped
to 10, and counts grouped by calendar date ordered by date ascending. -/
def get_aggregation_data (db : LogDb) (start_date end_date : Option Int)
    (severity : Option SeverityLevel) (source : Option String) :
    AggregationData :=
  let base := aggBaseQuery db start_date end_date severity source
  let total_logs := base.length
  let by_severity := severityLevels.filterMap (fun s =>
    if base.countP (fun e => decide (e.severity = s)) = 0 then none
    else some ⟨s, base.countP (fun e => decide (e.severity = s))⟩)
  let srcGroups := ((base.map (·.source)).dedup).map (fun k =>
    (⟨k, base.countP (fun e => decide (e.source = k))⟩ : SourceCount))
  let by_source :=
    (orderBy (fun a b => decide (b.count ≤ a.count)) srcGroups).take 10
  let dateKeys := orderBy (fun a b => decide (a ≤ b))
    ((base.map (fun e => e.timestamp.fdiv 86400)).dedup)
  let by_date := dateKeys.map (fun k =>
    (⟨k, base.countP (fun e => decide (e.timestamp.fdiv 86400 = k))⟩ :
      DateCount))
  ⟨total_logs, by_severity, by_source, by_date⟩

/-- Filter parameters of the list surface (`LogFilters` in
`app/schemas/log.py`): severity, source substring, date bounds, and the
free-text `search` term. -/
structure LogFilters where
  severity : Option SeverityLevel
  source : Option String
  start_date : Option Int
  end_date : Option Int
  search : Option String
deriving DecidableEq, Repr

/-- The aggregation endpoint (`get_log_aggregation` in
`app/api/v1/logs/analytics.py` lines 26-67) consumes only the severity,
source, start-date and end-date filters; the schema's `search` field has no
counterpart in the route signature. -/
def aggregationOfFilters (db : LogDb) (f : LogFilters) : AggregationData :=
  get_aggregation_data db f.start_date f.end_date f.severity f.source

/-- Model of `validate_date_range` (`app/api/v1/logs/utilities.py` lines
22-35): true exactly when both dates are supplied and
`start_date > end_date`, in which case the caller raises
`ValidationError("Invalid date range")`. -/
def invalid_date_range (start_date end_date : Option Int) : Bool :=
  match start_date, end_date with
  | some s, some e => decide (s > e)
  | _, _ => false

/-- Model of the `get_log_aggregation` handler
(`app/api/v1/logs/analytics.py` lines 26-67): `validate_date_range`
first, then `LogCRUD.get_aggregation_data`. -/
def get_log_aggregation (db : LogDb) (start_date end_date : Option Int)
    (severity : Option SeverityLevel) (source : Option String) :
    Except ApiFailure AggregationData :=
  if invalid_date_range start_date end_date then .error .validation
  else .ok (get_aggregation_data db start_date end_date severity source)

/-- Filter chain of `LogCRUD.get_for_export` (`app/crud/log.py` lines
181-191): severity, source substring, start date, end date — no search, no
pagination. -/
def exportQueryFiltered (db : LogDb) (severity : Option SeverityLevel)
    (source : Option String) (start_date end_date : Option Int) :
    List LogEntry :=
  let query := db
  let query := match severity with
    | some s => query.filter (fun e => decide (e.severity = s))
    | none => query
  let query := match source with
    | some s => if s = "" then query
        else query.filter (fun e => ilikeContains e.source s)
    | none => query
  let query := match start_date with
    | some d => query.filter (fun e => decide (d ≤ e.timestamp))
    | none => query
  let query := match end_date with
    | some d => query.filter (fun e => decide (e.timestamp ≤ d))
    | none => query
  query

/-- Model of `LogCRUD.get_for_export` (`app/crud/log.py` lines 170-193):
the filtered rows ordered by timestamp descending. -/
def get_for_export (db : LogDb) (severity : Option SeverityLevel)
    (source : Option String) (start_date end_date : Option Int) :
    List LogEntry :=
  orderBy (fun a b => decide (b.timestamp ≤ a.timestamp))
    (exportQueryFiltered db severity source start_date end_date)

/-- Civil date from a day number counted from 1970-01-01 (proleptic
Gregorian), the standard era-based conversion; used to model SQL
`date_trunc('month', ...)` and ISO-8601 rendering. -/
def civilFromDays (z₀ : Int) : Int × Int × Int :=
  let z := z₀ + 719468
  let era := z.fdiv 146097
  let doe := z - era * 146097
  let yoe := (doe - doe / 1460 + doe / 36524 - doe / 146096) / 365
  let y := yoe + era * 400
  let doy := doe - (365 * yoe + yoe / 4 - yoe / 100)
  let mp := (5 * doy + 2) / 153
  let d := doy - (153 * mp + 2) / 5 + 1
  let m := mp + (if mp < 10 then 3 else -9)
  (y + (if m ≤ 2 then 1 else 0), m, d)

/-- Day number from a civil date, inverse of `civilFromDays`. -/
def daysFromCivil (y₀ m d : Int) : Int :=
  let y := y₀ - (if m ≤ 2 then 1 else 0)
  let era := y.fdiv 400
  let yoe := y - era * 400
  let doy := (153 * (m + (if m > 2 then -3 else 9)) + 2) / 5 + d - 1
  let doe := yoe * 365 + yoe / 4 - yoe / 100 + doy
  era * 146097 + doe - 719468

/-- SQL `date_trunc('hour', ts)` on epoch seconds. -/
def truncHour (t : Int) : Int := 3600 * (t.fdiv 3600)

/-- SQL `date_trunc('day', ts)` on epoch seconds. -/
def truncDay (t : Int) : Int := 86400 * (t.fdiv 86400)

/-- SQL `date_trunc('week', ts)` on epoch seconds: start of the ISO week
(Monday). Day 0 (1970-01-01) is a Thursday, so day `d` is a Monday exactly
when `(d + 3) % 7 = 0`. -/
def truncWeek (t : Int) : Int :=
  let d := t.fdiv 86400
  86400 * (d - (d + 3).emod 7)

/-- SQL `date_trunc('month', ts)` on epoch seconds: first day of the civil
month. -/
def truncMonth (t : Int) : Int :=
  let c := civilFromDays (t.fdiv 86400)
  86400 * daysFromCivil c.1 c.2.1 1

/-- Model of `get_time_group_expression` (`app/api/v1/logs/utilities.py`
lines 38-46): dictionary lookup over hour/day/week/month with `day` as the
default for any other value. -/
def get_time_group_expression (group_by : String) : Int → Int :=
  if group_by = "hour" then truncHour
  else if group_by = "day" then truncDay
  else if group_by = "week" then truncWeek
  else if group_by = "month" then truncMonth
  else truncDay

/-- Two-digit zero-padded decimal rendering. -/
def pad2 (n : Int) : String :=
  if n < 10 then "0" ++ toString n else toString n

/-- Four-digit zero-padded decimal rendering. -/
def pad4 (n : Int) : String :=
  if n < 10 then "000" ++ toString n
  else if n < 100 then "00" ++ toString n
  else if n < 1000 then "0" ++ toString n
  else toString n

/-- Python `datetime.isoformat()` of an epoch-second timestamp
(`YYYY-MM-DDTHH:MM:SS`). -/
def isoformat (t : Int) : String :=
  let days := t.fdiv 86400
  let secs := t - 86400 * days
  let c := civilFromDays days
  pad4 c.1 ++ "-" ++ pad2 c.2.1 ++ "-" ++ pad2 c.2.2 ++ "T" ++
    pad2 (secs / 3600) ++ ":" ++ pad2 ((secs / 60) % 60) ++ ":" ++
    pad2 (secs % 60)

/-- Python `csv` minimal quoting: a field is quoted when it contains the
delimiter, the quote char, or a line-break char. -/
def csvNeedsQuote (s : String) : Bool :=
  s.data.any (fun c =>
    c = ',' || c = '"' || c = '\n' || c = '\x0d')

/-- Double every quote char (the `csv` module's quote escaping). -/
def escapeQuotes : List Char → List Char
  | [] => []
  | c :: cs =>
      if c = '"' then '"' :: '"' :: escapeQuotes cs
      else c :: escapeQuotes cs

/-- Serialize one CSV field with minimal quoting. -/
def csvQuoteField (s : String) : String :=
  if csvNeedsQuote s then "\"" ++ String.mk (escapeQuotes s.data) ++ "\""
  else s

/-- Serialize one CSV record: comma-joined fields ending in CRLF
(`csv.writer` default dialect). -/
def csvRowString (fields : List String) : String :=
  String.intercalate "," (fields.map csvQuoteField) ++ "\x0d\n"

/-- Header row written by `generate_csv_content`
(`app/api/v1/logs/utilities.py` line 78). -/
def csvHeader : List String :=
  ["id", "timestamp", "severity", "source", "message", "created_at"]

/-- Data row written for one log entry (`app/api/v1/logs/utilities.py`
lines 81-89): id, ISO timestamp, severity value, source, message, ISO
created_at. -/
def serializeLog (e : LogEntry) : List String :=
  [toString e.id, isoformat e.timestamp, e.severity.value, e.source,
   e.message, isoformat e.created_at]

/-- The records written by `generate_csv_content`: the fixed header followed
by one record per entry, in input order. -/
def csvRecords (logs : List LogEntry) : List (List String) :=
  csvHeader :: logs.map serializeLog

/-- Model of `generate_csv_content` (`app/api/v1/logs/utilities.py` lines
72-93). -/
def generate_csv_content (logs : List LogEntry) : String :=
  String.join ((csvRecords logs).map csvRowString)

/-- Model of the `export_logs_csv` handler (`app/api/v1/logs/utilities.py`
lines 137-169): `validate_date_range` first, then `get_for_export`, then
CSV rendering. -/
def export_logs_csv (db : LogDb) (severity : Option SeverityLevel)
    (source : Option String) (start_date end_date : Option Int) :
    Except ApiFailure String :=
  if invalid_date_range start_date end_date then .error .validation
  else .ok (generate_csv_content
    (get_for_export db severity source start_date end_date))

/-- One bucket of the chart series (`ChartDataPoint` in
`app/schemas/log.py` / the per-bucket dict built by `format_chart_data`):
bucket-start timestamp, total, and one count per severity level. -/
structure ChartPoint where
  timestamp : Int
  total : Nat
  DEBUG : Nat
  INFO : Nat
  WARNING : Nat
  ERROR : Nat
  CRITICAL : Nat
deriving DecidableEq, Repr

/-- Zero-filled bucket created when a time key is first seen
(`format_chart_data`, `app/api/v1/logs/utilities.py` lines 55-64). -/
def emptyChartPoint (t : Int) : ChartPoint := ⟨t, 0, 0, 0, 0, 0, 0⟩

/-- Projection of the per-severity cell of a bucket. -/
def severityCell (p : ChartPoint) : SeverityLevel → Nat
  | .DEBUG => p.DEBUG
  | .INFO => p.INFO
  | .WARNING => p.WARNING
  | .ERROR => p.ERROR
  | .CRITICAL => p.CRITICAL

/-- Assignment `chart_data[time_str][severity.value] = count`
(`app/api/v1/logs/utilities.py` line 66). -/
def setSeverityCell (p : ChartPoint) (s : SeverityLevel) (c : Nat) :
    ChartPoint :=
  match s with
  | .DEBUG => { p with DEBUG := c }
  | .INFO => { p with INFO := c }
  | .WARNING => { p with WARNING := c }
  | .ERROR => { p with ERROR := c }
  | .CRITICAL => { p with CRITICAL := c }

/-- Effect of one grouped row on its bucket (`app/api/v1/logs/utilities.py`
lines 66-67): set the severity cell to the row's count, then add the count
to the bucket total. -/
def applyCell (p : ChartPoint) (s : SeverityLevel) (c : Nat) : ChartPoint :=
  let q := setSeverityCell p s c
  { q with total := q.total + c }

/-- Per-row body of the `format_chart_data` loop
(`app/api/v1/logs/utilities.py` lines 53-67): insert a zero-filled bucket
when the time key is new, then apply the row to its bucket (the severity of
a grouped row is never null, the column being non-nullable). The
accumulator keeps dict insertion order. -/
def chartStep (acc : List ChartPoint) (row : Int × SeverityLevel × Nat) :
    List ChartPoint :=
  let t := row.1
  let s := row.2.1
  let c := row.2.2
  let acc := if acc.any (fun p => decide (p.timestamp = t)) then acc
    else acc ++ [emptyChartPoint t]
  acc.map (fun p => if decide (p.timestamp = t) then applyCell p s c else p)

/-- Model of `format_chart_data` (`app/api/v1/logs/utilities.py` lines
49-69): fold the grouped rows into buckets; `list(chart_data.values())`
preserves insertion order. -/
def format_chart_data (rows : List (Int × SeverityLevel × Nat)) :
    List ChartPoint :=
  rows.foldl chartStep []

/-- Grouped time-series query of the chart handler
(`app/api/v1/logs/analytics.py` lines 97-107): group the filtered rows by
(truncated timestamp, severity), count each group, and order by the time
period. Group order within one period is unspecified in SQL; the model uses
enum declaration order. Only non-empty groups are produced. -/
def chartRows (db : LogDb) (start_date end_date : Option Int)
    (severity : Option SeverityLevel) (source : Option String)
    (group_by : String) : List (Int × SeverityLevel × Nat) :=
  let base := aggBaseQuery db start_date end_date severity source
  let trunc := get_time_group_expression group_by
  let periods := orderBy (fun a b => decide (a ≤ b))
    ((base.map (fun e => trunc e.timestamp)).dedup)
  periods.flatMap (fun p => severityLevels.filterMap (fun s =>
    if base.countP (fun e =>
        decide (trunc e.timestamp = p) && decide (e.severity = s)) = 0
    then none
    else some (p, s, base.countP (fun e =>
      decide (trunc e.timestamp = p) && decide (e.severity = s)))))

/-- Chart payload of the `get_chart_data` handler. -/
structure ChartDataResponse where
  data : List ChartPoint
  group_by : String
  start_date : Option Int
  end_date : Option Int
  filter_severity : Option String
  filter_source : Option String
deriving DecidableEq, Repr

/-- Values accepted by the route pattern `^(hour|day|week|month)$` on
`group_by` (`app/api/v1/logs/analytics.py` line 76). -/
def groupByValues : List String := ["hour", "day", "week", "month"]

/-- Model of the `get_chart_data` handler (`app/api/v1/logs/analytics.py`
lines 70-124): the FastAPI pattern check on `group_by`, then the filtered
grouped query and `format_chart_data` — with no date-range validation
anywhere on this path. -/
def get_chart_data (db : LogDb) (start_date end_date : Option Int)
    (severity : Option SeverityLevel) (source : Option String)
    (group_by : String) : Except ApiFailure ChartDataResponse :=
  if ¬ groupByValues.contains group_by then .error .validation
  else .ok ⟨format_chart_data
      (chartRows db start_date end_date severity source group_by),
    group_by, start_date, end_date, severity.map (·.value), source⟩

/-- Pydantic field constraints of `LogBase` / `LogCreate`
(`app/schemas/log.py` lines 9-19): message 1-1000 chars, source 1-100
chars; severity and timestamp are type-checked. FastAPI enforces these
before the handler body runs. -/
def logCreateSchemaOk (message source : String) : Bool :=
  decide (1 ≤ message.length) && decide (message.length ≤ 1000) &&
    decide (1 ≤ source.length) && decide (source.length ≤ 100)

/-- Model of `validate_log_creation` (`app/validators/log_validators.py`
lines 12-90) on a parsed `LogCreate`: empty-after-strip and length checks
on message (max 10000) and source (max 255), and a supplied timestamp must
not exceed the current time. The severity branch never fires on a parsed
enum member. -/
def validate_log_creation (now : Int) (message : String) (source : String)
    (timestamp : Option Int) : List String :=
  let errors : List String := []
  let errors :=
    if stripString message = "" then errors ++ ["Message cannot be empty"]
    else if message.length > 10000 then
      errors ++ ["Message too long (max 10000 characters)"]
    else errors
  let errors :=
    if stripString source = "" then errors ++ ["Source cannot be empty"]
    else if source.length > 255 then
      errors ++ ["Source too long (max 255 characters)"]
    else errors
  let errors := match timestamp with
    | some t => if t > now then
        errors ++ ["Timestamp cannot be in the future"]
      else errors
    | none => errors
  errors

/-- Model of the create pipeline (`app/api/v1/logs/create.py` lines 19-41
with `LogCRUD.create`, `app/crud/log.py` lines 14-26): pydantic schema
parsing, then `validate_log_creation`, then the insert with
`timestamp or now` defaulting and store-assigned id and audit columns. -/
def create_log (db : LogDb) (now : Int) (nextId : Nat) (message : String)
    (severity : SeverityLevel) (source : String) (timestamp : Option Int) :
    Except ApiFailure (LogDb × LogEntry) :=
  if ¬ logCreateSchemaOk message source then .error .validation
  else if validate_log_creation now message source timestamp ≠ [] then
    .error .validation
  else
    let e : LogEntry :=
      ⟨nextId, timestamp.getD now, message, severity, source, now, now⟩
    .ok (db ++ [e], e)

/-- Partial-update payload (`LogUpdate` in `app/schemas/log.py` lines
22-27); `none` is an unset field, which `dict(exclude_unset=True)` omits. -/
structure LogUpdate where
  message : Option String
  severity : Option SeverityLevel
  source : Option String
  timestamp : Option Int
deriving DecidableEq, Repr

/-- The update with no field set. -/
def emptyLogUpdate : LogUpdate := ⟨none, none, none, none⟩

/-- Pydantic constraints of `LogUpdate`: a supplied message is 1-1000
chars, a supplied source 1-100 chars. -/
def logUpdateSchemaOk (u : LogUpdate) : Bool :=
  (match u.message with
    | some m => decide (1 ≤ m.length) && decide (m.length ≤ 1000)
    | none => true) &&
  (match u.source with
    | some s => decide (1 ≤ s.length) && decide (s.length ≤ 100)
    | none => true)

/-- Model of `validate_log_update` (`app/validators/log_validators.py`
lines 93-170): positive id, then per-field checks on each supplied field
(message max 10000, source max 255, timestamp not in the future). -/
def validate_log_update (now : Int) (log_id : Int) (u : LogUpdate) :
    List String :=
  let errors : List String := []
  let errors := if log_id ≤ 0 then
      errors ++ ["Log ID must be a positive integer"]
    else errors
  let errors := match u.message with
    | some m =>
        if stripString m = "" then errors ++ ["Message cannot be empty"]
        else if m.length > 10000 then
          errors ++ ["Message too long (max 10000 characters)"]
        else errors
    | none => errors
  let errors := match u.source with
    | some s =>
        if stripString s = "" then errors ++ ["Source cannot be empty"]
        else if s.length > 255 then
          errors ++ ["Source too long (max 255 characters)"]
        else errors
    | none => errors
  let errors := match u.timestamp with
    | some t => if t > now then
        errors ++ ["Timestamp cannot be in the future"]
      else errors
    | none => errors
  errors

/-- The `setattr` loop of `LogCRUD.update` (`app/crud/log.py` lines 88-90):
only fields present in `dict(exclude_unset=True)` are assigned. -/
def applyLogUpdate (e : LogEntry) (u : LogUpdate) : LogEntry :=
  { e with
    message := u.message.getD e.message,
    severity := u.severity.getD e.severity,
    source := u.source.getD e.source,
    timestamp := u.timestamp.getD e.timestamp }

/-- Model of `LogCRUD.update` (`app/crud/log.py` lines 80-94): find the row
by id, apply the supplied fields, commit. The commit flushes the row — and
emits an UPDATE statement — only when the `setattr` loop produced a net
change to the row (SQLAlchemy flushes only dirtied objects); only on an
actual UPDATE does the `onupdate=func.now()` default of `updated_at`
(`app/models/log.py` lines 38-42) fire and refresh it. With no net change —
in particular with an empty `exclude_unset` dict — no UPDATE is emitted and
the row is returned unchanged, `updated_at` included. -/
def crud_update (db : LogDb) (now : Int) (log_id : Nat) (u : LogUpdate) :
    Option (LogDb × LogEntry) :=
  match db.find? (fun e => decide (e.id = log_id)) with
  | none => none
  | some log =>
      let applied := applyLogUpdate log u
      let updated := if applied = log then log
        else { applied with updated_at := now }
      some (db.map (fun e => if e.id = log_id then updated else e), updated)

/-- Model of the update pipeline (`app/api/v1/logs/update.py` lines 19-45):
pydantic schema parsing, `validate_log_update`, existence check, then
`LogCRUD.update`. -/
def update_log (db : LogDb) (now : Int) (log_id : Nat) (u : LogUpdate) :
    Except ApiFailure (LogDb × LogEntry) :=
  if ¬ logUpdateSchemaOk u then .error .validation
  else if validate_log_update now (log_id : Int) u ≠ [] then
    .error .validation
  else match crud_update db now log_id u with
    | none => .error .notFound
    | some r => .ok r

/-! Helper lemmas about the `ORDER BY` model. -/

theorem insertOrdered_perm (le : α → α → Bool) (a : α) (l : List α) :
    (insertOrdered le a l).Perm (a :: l) := by
  induction l with
  | nil => exact List.Perm.refl _
  | cons b t ih =>
      unfold insertOrdered
      by_cases h : le a b
      · simp [h]
      · simp only [h, if_false]
        exact (ih.cons b).trans (List.Perm.swap a b t)

theorem orderBy_perm (le : α → α → Bool) (l : List α) :
    (orderBy le l).Perm l := by
  induction l with
  | nil => exact List.Perm.refl _
  | cons a t ih => exact (insertOrdered_perm le a (orderBy le t)).trans (ih.cons a)

theorem pairwise_insertOrdered (le : α → α → Bool)
    (htot : ∀ a b, le a b = true ∨ le b a = true)
    (htr : ∀ a b c, le a b = true → le b c = true → le a c = true)
    (a : α) (l : List α) (h : l.Pairwise (fun x y => le x y = true)) :
    (insertOrdered le a l).Pairwise (fun x y => le x y = true) := by
  induction l with
  | nil => simp [insertOrdered]
  | cons b t ih =>
      rw [List.pairwise_cons] at h
      unfold insertOrdered
      by_cases hab : le a b = true
      · simp only [hab, if_true]
        rw [List.pairwise_cons]
        refine ⟨?_, List.pairwise_cons.mpr h⟩
        intro y hy
        rcases List.mem_cons.mp hy with rfl | hyt
        · exact hab
        · exact htr a b y hab (h.1 y hyt)
      · simp only [hab, Bool.false_eq_true, if_false]
        rw [List.pairwise_cons]
        refine ⟨?_, ih h.2⟩
        intro y hy
        have hy' : y ∈ a :: t := (insertOrdered_perm le a t).mem_iff.mp hy
        rcases List.mem_cons.mp hy' with rfl | hyt
        · rcases htot y b with hyb | hby
          · exact absurd hyb hab
          · exact hby
        · exact h.1 y hyt

theorem pairwise_orderBy (le : α → α → Bool)
    (htot : ∀ a b, le a b = true ∨ le b a = true)
    (htr : ∀ a b c, le a b = true → le b c = true → le a c = true)
    (l : List α) :
    (orderBy le l).Pairwise (fun x y => le x y = true) := by
  induction l with
  | nil => simp [orderBy]
  | cons a t ih => exact pairwise_insertOrdered le htot htr a _ ih

/-! Helper lemmas about counting. -/

theorem countP_severity_partition (q : LogEntry → Bool) (l : List LogEntry) :
    (severityLevels.map (fun s =>
      l.countP (fun e => q e && decide (e.severity = s)))).sum
      = l.countP q := by
  induction l with
  | nil => simp [severityLevels]
  | cons e t ih =>
      simp only [severityLevels, List.map_cons, List.map_nil, List.sum_cons,
        List.sum_nil, List.countP_cons] at ih ⊢
      rcases hq : q e <;> cases hs : e.severity <;> simp [hq, hs] <;> omega

theorem count_map_eq_countP (f : α → Int) (l : List α) (b : Int) :
    (l.map f).count b = l.countP (fun a => decide (f a = b)) := by
  rw [List.count_eq_countP, List.countP_map]
  apply List.countP_congr
  intro a _
  simp [Function.comp]

theorem sum_countP_dedup (key : α → Int) (l : List α) :
    (((l.map key).dedup).map (fun p =>
      l.countP (fun a => decide (key a = p)))).sum = l.length := by
  have h := List.sum_map_count_dedup_eq_length (l.map key)
  rw [List.length_map] at h
  rw [← h]
  apply congrArg
  apply List.map_congr_left
  intro p _
  rw [count_map_eq_countP]

/-! Helper lemmas about the chart fold. -/

theorem applyCell_timestamp (p : ChartPoint) (s : SeverityLevel) (c : Nat) :
    (applyCell p s c).timestamp = p.timestamp := by
  cases s <;> rfl

theorem chartStep_singleton (pt : ChartPoint) (t : Int) (s : SeverityLevel)
    (c : Nat) (h : pt.timestamp = t) :
    chartStep [pt] (t, s, c) = [applyCell pt s c] := by
  simp [chartStep, h]

theorem chartStep_nil (t : Int) (s : SeverityLevel) (c : Nat) :
    chartStep [] (t, s, c) = [applyCell (emptyChartPoint t) s c] := by
  simp [chartStep, emptyChartPoint]

theorem foldl_block (cnt : SeverityLevel → Nat) (p : Int) :
    ∀ (L : List SeverityLevel) (pt : ChartPoint), pt.timestamp = p →
      ((L.filterMap (fun s => if cnt s = 0 then none
          else some (p, s, cnt s))).foldl chartStep [pt])
        = [L.foldl (fun q s => if cnt s = 0 then q
            else applyCell q s (cnt s)) pt] := by
  intro L
  induction L with
  | nil => intro pt _; simp
  | cons s L ih =>
      intro pt hpt
      by_cases h : cnt s = 0
      · simp only [List.filterMap_cons, h, if_true, List.foldl_cons, if_pos]
        exact ih pt hpt
      · have e1 : chartStep [pt] (p, s, cnt s) = [applyCell pt s (cnt s)] :=
          chartStep_singleton pt p s (cnt s) hpt
        simp only [List.filterMap_cons, h, if_false, List.foldl_cons, e1,
          if_neg h]
        exact ih _ (by rw [applyCell_timestamp, hpt])

theorem foldl_block_nil (cnt : SeverityLevel → Nat) (p : Int) :
    ∀ (L : List SeverityLevel), (∃ s ∈ L, cnt s ≠ 0) →
      ((L.filterMap (fun s => if cnt s = 0 then none
          else some (p, s, cnt s))).foldl chartStep [])
        = [L.foldl (fun q s => if cnt s = 0 then q
            else applyCell q s (cnt s)) (emptyChartPoint p)] := by
  intro L
  induction L with
  | nil => intro h; simp at h
  | cons s L ih =>
      intro hex
      by_cases h : cnt s = 0
      · have hex' : ∃ x ∈ L, cnt x ≠ 0 := by
          rcases hex with ⟨x, hx, hxne⟩
          rcases List.mem_cons.mp hx with rfl | hxl
          · exact absurd h hxne
          · exact ⟨x, hxl, hxne⟩
        simp only [List.filterMap_cons, h, if_true, List.foldl_cons, if_pos]
        exact ih hex'
      · have e1 : chartStep [] (p, s, cnt s)
            = [applyCell (emptyChartPoint p) s (cnt s)] :=
          chartStep_nil p s (cnt s)
        simp only [List.filterMap_cons, h, if_false, List.foldl_cons, e1,
          if_neg h]
        exact foldl_block cnt p L _ (by rw [applyCell_timestamp]; rfl)

theorem blockPoint_spec (cnt : SeverityLevel → Nat) (p : Int) :
    (severityLevels.foldl (fun q s => if cnt s = 0 then q
        else applyCell q s (cnt s)) (emptyChartPoint p)).timestamp = p ∧
    (∀ s, severityCell (severityLevels.foldl (fun q s => if cnt s = 0 then q
        else applyCell q s (cnt s)) (emptyChartPoint p)) s = cnt s) ∧
    (severityLevels.foldl (fun q s => if cnt s = 0 then q
        else applyCell q s (cnt s)) (emptyChartPoint p)).total
      = cnt .DEBUG + cnt .INFO + cnt .WARNING + cnt .ERROR + cnt .CRITICAL := by
  refine ⟨?_, ?_, ?_⟩
  · simp only [severityLevels, List.foldl_cons, List.foldl_nil]
    split_ifs <;>
      simp [applyCell_timestamp, emptyChartPoint, applyCell, setSeverityCell]
  · intro s
    cases s <;>
      · simp only [severityLevels, List.foldl_cons, List.foldl_nil]
        split_ifs <;>
          simp_all [applyCell, setSeverityCell, severityCell, emptyChartPoint]
  · simp only [severityLevels, List.foldl_cons, List.foldl_nil]
    split_ifs <;> simp_all [applyCell, setSeverityCell, emptyChartPoint]

theorem foldl_chartStep_prefix :
    ∀ (rows : List (Int × SeverityLevel × Nat)) (acc₀ acc₁ : List ChartPoint),
      (∀ r ∈ rows, ∀ pt ∈ acc₀, pt.timestamp ≠ r.1) →
      rows.foldl chartStep (acc₀ ++ acc₁) = acc₀ ++ rows.foldl chartStep acc₁
  | [], acc₀, acc₁, _ => by simp
  | r :: rows, acc₀, acc₁, h => by
      have hne : ∀ pt ∈ acc₀, pt.timestamp ≠ r.1 :=
        fun pt hpt => h r (List.mem_cons_self r rows) pt hpt
      have hstep : chartStep (acc₀ ++ acc₁) r = acc₀ ++ chartStep acc₁ r := by
        obtain ⟨t, s, c⟩ := r
        have hfalse : acc₀.any (fun p => decide (p.timestamp = t)) = false := by
          rw [List.any_eq_false]
          intro pt hpt
          simpa using hne pt hpt
        have hid : acc₀.map (fun p =>
            if decide (p.timestamp = t) then applyCell p s c else p) = acc₀ := by
          have := List.map_congr_left (l := acc₀)
            (f := fun p => if decide (p.timestamp = t) then applyCell p s c
              else p) (g := id) ?_
          · rw [this, List.map_id]
          · intro pt hpt
            simp [hne pt hpt]
        simp only [chartStep, List.any_append, hfalse, Bool.false_or]
        by_cases hc : acc₁.any (fun p => decide (p.timestamp = t)) = true
        · simp only [hc, if_true, List.map_append, hid]
        · simp only [hc, if_false, Bool.not_eq_true] at *
          simp only [hc, Bool.false_eq_true, if_false, List.append_assoc,
            List.map_append, hid]
      rw [List.foldl_cons, List.foldl_cons, hstep,
        foldl_chartStep_prefix rows acc₀ (chartStep acc₁ r)
          (fun r' hr' pt hpt => h r' (List.mem_cons_of_mem r hr') pt hpt)]

theorem format_flatMap (cnt : Int → SeverityLevel → Nat) :
    ∀ (periods : List Int), periods.Nodup →
      (∀ p ∈ periods, ∃ s, cnt p s ≠ 0) →
      format_chart_data (periods.flatMap (fun p =>
        severityLevels.filterMap (fun s =>
          if cnt p s = 0 then none else some (p, s, cnt p s))))
        = periods.map (fun p =>
            severityLevels.foldl (fun q s => if cnt p s = 0 then q
              else applyCell q s (cnt p s)) (emptyChartPoint p)) := by
  intro periods
  induction periods with
  | nil => intro _ _; simp [format_chart_data]
  | cons p ps ih =>
      intro hnd hne
      have hp : ∃ s ∈ severityLevels, cnt p s ≠ 0 := by
        rcases hne p (List.mem_cons_self p ps) with ⟨s, hs⟩
        exact ⟨s, by cases s <;> simp [severityLevels], hs⟩
      rw [List.nodup_cons] at hnd
      unfold format_chart_data
      rw [List.flatMap_cons, List.foldl_append,
        foldl_block_nil (cnt p) p severityLevels hp]
      have hkey : ∀ r ∈ ps.flatMap (fun q =>
          severityLevels.filterMap (fun s =>
            if cnt q s = 0 then none else some (q, s, cnt q s))),
          ∀ pt ∈ [severityLevels.foldl (fun q s => if cnt p s = 0 then q
            else applyCell q s (cnt p s)) (emptyChartPoint p)],
          pt.timestamp ≠ r.1 := by
        intro r hr pt hpt
        rcases List.mem_flatMap.mp hr with ⟨q, hq, hrq⟩
        rcases List.mem_filterMap.mp hrq with ⟨s, _, hs⟩
        have hr1 : r.1 = q := by
          by_cases h0 : cnt q s = 0
          · rw [h0] at hs; simp at hs
          · rw [if_neg h0] at hs
            cases hs.symm
            rfl
        rcases List.mem_singleton.mp hpt with rfl
        rw [(blockPoint_spec (cnt p) p).1, hr1]
        intro hpq
        exact hnd.1 (hpq ▸ hq)
      have e2 := foldl_chartStep_prefix (ps.flatMap (fun q =>
          severityLevels.filterMap (fun s =>
            if cnt q s = 0 then none else some (q, s, cnt q s))))
        [severityLevels.foldl (fun q s => if cnt p s = 0 then q
          else applyCell q s (cnt p s)) (emptyChartPoint p)] [] hkey
      rw [List.append_nil] at e2
      rw [e2, List.map_cons, List.singleton_append]
      exact congrArg (List.cons _)
        (ih hnd.2 (fun q hq => hne q (List.mem_cons_of_mem p hq)))

/-- Sample store used to instantiate and to refute claims: two rows in
store-native order whose insertion order differs from timestamp order. -/
def dbSample : LogDb :=
  [⟨1, 0, "alpha", .INFO, "svc-a", 0, 0⟩,
   ⟨2, 100, "beta", .ERROR, "svc-b", 0, 0⟩]

theorem by_severity_sum (l : List LogEntry) :
    ((severityLevels.filterMap (fun s =>
      if l.countP (fun e => decide (e.severity = s)) = 0 then none
      else some (⟨s, l.countP (fun e => decide (e.severity = s))⟩ :
        SeverityCount))).map SeverityCount.count).sum = l.length := by
  have step : ∀ (L : List SeverityLevel),
      ((L.filterMap (fun s =>
        if l.countP (fun e => decide (e.severity = s)) = 0 then none
        else some (⟨s, l.countP (fun e => decide (e.severity = s))⟩ :
          SeverityCount))).map SeverityCount.count).sum
        = (L.map (fun s =>
            l.countP (fun e => decide (e.severity = s)))).sum := by
    intro L
    induction L with
    | nil => simp
    | cons s L ih =>
        by_cases h : l.countP (fun e => decide (e.severity = s)) = 0
        · rw [List.filterMap_cons_none (by rw [if_pos h]),
            List.map_cons, List.sum_cons, h, Nat.zero_add]
          exact ih
        · rw [List.filterMap_cons_some (by rw [if_neg h]),
            List.map_cons, List.sum_cons, List.map_cons, List.sum_cons, ih]
  rw [step]
  have h := countP_severity_partition (fun _ => true) l
  simp only [Bool.true_and] at h
  rw [h, List.countP_true]

/-- C3: for every filter set, the aggregation's per-severity counts sum to
its `total_logs`, and the aggregation consumes only the severity, source,
start-date and end-date filters — the `search` field of the filter set
never affects the result. -/
theorem aggregation_severity_sum_and_search_ignored (db : LogDb)
    (f : LogFilters) :
    ((aggregationOfFilters db f).by_severity.map SeverityCount.count).sum
      = (aggregationOfFilters db f).total_logs ∧
    ∀ s, aggregationOfFilters db { f with search := s }
      = aggregationOfFilters db f := by
  refine ⟨?_, fun s => rfl⟩
  exact by_severity_sum
    (aggBaseQuery db f.start_date f.end_date f.severity f.source)

/-- Counterexample for C9: an empty partial update of an existing entry
produces no net change, so the commit emits no UPDATE and `updated_at`
keeps its old value (here 0) instead of being refreshed to the mutation
time (here 500). -/
theorem update_empty_no_refresh_counterexample :
    crud_update dbSample 500 1 emptyLogUpdate
      = some (dbSample, ⟨1, 0, "alpha", .INFO, "svc-a", 0, 0⟩) ∧
    ¬ (⟨1, 0, "alpha", .INFO, "svc-a", 0, 0⟩ : LogEntry).updated_at
      = 500 := by
  exact ⟨rfl, by decide⟩

/-- C9 as amended: updating an existing entry with the empty partial-field
set leaves the entry completely unchanged — id, timestamp, message,
severity, source, created_at, and also updated_at: with no net change the
commit emits no UPDATE, so the `onupdate` refresh of `updated_at` never
fires. -/
theorem update_empty_frame_all_unchanged (db : LogDb) (now : Int)
    (log_id : Nat) (e : LogEntry)
    (h : db.find? (fun x => decide (x.id = log_id)) = some e) :
    crud_update db now log_id emptyLogUpdate
      = some (db.map (fun x => if x.id = log_id then e else x), e) := by
  unfold crud_update
  rw [h]
  have happ : applyLogUpdate e emptyLogUpdate = e := rfl
  simp [happ]

/-- Witness for the amended C9 at a concrete store and id. -/
theorem update_empty_frame_all_unchanged_witness :
    dbSample.find? (fun x => decide (x.id = 1))
        = some ⟨1, 0, "alpha", .INFO, "svc-a", 0, 0⟩ ∧
    crud_update dbSample 500 1 emptyLogUpdate
      = some (dbSample.map (fun x => if x.id = 1
          then ⟨1, 0, "alpha", .INFO, "svc-a", 0, 0⟩ else x),
        ⟨1, 0, "alpha", .INFO, "svc-a", 0, 0⟩) :=
  ⟨rfl, update_empty_frame_all_unchanged dbSample 500 1
    ⟨1, 0, "alpha", .INFO, "svc-a", 0, 0⟩ rfl⟩

theorem sortLe_total (sb : String) (a b : LogEntry) :
    sortLe sb a b = true ∨ sortLe sb b a = true := by
  unfold sortLe
  split_ifs <;> simp only [decide_eq_true_eq] <;>
    first
      | exact le_total _ _
      | exact Or.inl trivial

theorem sortLe_trans (sb : String) (a b c : LogEntry)
    (h1 : sortLe sb a b = true) (h2 : sortLe sb b c = true) :
    sortLe sb a c = true := by
  unfold sortLe at h1 h2 ⊢
  split_ifs at h1 h2 ⊢ <;>
    first
      | rfl
      | (simp only [decide_eq_true_eq] at h1 h2 ⊢; exact le_trans h1 h2)

/-- C10: in `LogCRUD.get_multi` the sort direction is descending exactly
when `sort_order` is the exact string `"desc"`; any other value behaves
like `"asc"` and yields ascending order on the chosen field. -/
theorem sort_order_desc_exact (db : LogDb) (page page_size : Int)
    (sev : Option SeverityLevel) (src : Option String) (sd ed : Option Int)
    (search : Option String) (sb so : String)
    (hsb : logEntryAttrs.contains sb = true) :
    (so ≠ "desc" →
      get_multi db page page_size sev src sd ed search sb so
        = get_multi db page page_size sev src sd ed search sb "asc") ∧
    (so = "desc" →
      (get_multi db page page_size sev src sd ed search sb so).1.Pairwise
        (fun a b => sortLe sb b a = true)) ∧
    (so ≠ "desc" →
      (get_multi db page page_size sev src sd ed search sb so).1.Pairwise
        (fun a b => sortLe sb a b = true)) := by
  have hmem : sb ∈ logEntryAttrs := by simpa using hsb
  have hsub : ∀ l : List LogEntry,
      (((l.drop (((page - 1) * page_size).toNat)).take
        page_size.toNat)).Sublist l :=
    fun l => (List.take_sublist _ _).trans (List.drop_sublist _ _)
  refine ⟨?_, ?_, ?_⟩
  · intro hso
    simp [get_multi, sortedLogQuery, hmem, hso]
  · intro hso
    have hp := pairwise_orderBy (fun a b => sortLe sb b a)
      (fun a b => (sortLe_total sb a b).symm)
      (fun a b c h1 h2 => sortLe_trans sb c b a h2 h1)
      (logQueryFiltered db sev src sd ed search)
    have heq : (get_multi db page page_size sev src sd ed search sb so).1
        = ((orderBy (fun a b => sortLe sb b a)
            (logQueryFiltered db sev src sd ed search)).drop
              (((page - 1) * page_size).toNat)).take page_size.toNat := by
      simp [get_multi, sortedLogQuery, hmem, hso]
    rw [heq]
    exact List.Pairwise.sublist (hsub _) hp
  · intro hso
    have hp := pairwise_orderBy (sortLe sb)
      (fun a b => sortLe_total sb a b)
      (fun a b c h1 h2 => sortLe_trans sb a b c h1 h2)
      (logQueryFiltered db sev src sd ed search)
    have heq : (get_multi db page page_size sev src sd ed search sb so).1
        = ((orderBy (sortLe sb)
            (logQueryFiltered db sev src sd ed search)).drop
              (((page - 1) * page_size).toNat)).take page_size.toNat := by
      simp [get_multi, sortedLogQuery, hmem, hso]
    rw [heq]
    exact List.Pairwise.sublist (hsub _) hp

/-- Witness for C10 at a concrete store, sorting by timestamp. -/
theorem sort_order_desc_exact_witness :
    logEntryAttrs.contains "timestamp" = true ∧
    (("desc" ≠ "desc" →
      get_multi dbSample 1 50 none none none none none "timestamp" "desc"
        = get_multi dbSample 1 50 none none none none none "timestamp"
            "asc") ∧
    ("desc" = "desc" →
      (get_multi dbSample 1 50 none none none none none "timestamp"
        "desc").1.Pairwise (fun a b => sortLe "timestamp" b a = true)) ∧
    ("desc" ≠ "desc" →
      (get_multi dbSample 1 50 none none none none none "timestamp"
        "desc").1.Pairwise (fun a b => sortLe "timestamp" a b = true))) :=
  ⟨by decide,
   sort_order_desc_exact dbSample 1 50 none none none none none "timestamp"
     "desc" (by decide)⟩

/-- Counterexample for C2: with an unrecognized `sort_by` the result page
is not ordered as if sorting by timestamp — it stays in store-native
order. -/
theorem unrecognized_sort_counterexample :
    (get_multi dbSample 1 50 none none none none none "nonexistent"
        "desc").1
      ≠ (get_multi dbSample 1 50 none none none none none "timestamp"
        "desc").1 := by
  decide

/-- C2 as amended: when `sort_by` is not an attribute of the log entity the
operation does not fail, but no ordering is applied at all — the result
page is the pagination window over the filtered rows in store-native
order (not timestamp order). -/
theorem unrecognized_sort_native_order (db : LogDb) (page page_size : Int)
    (sev : Option SeverityLevel) (src : Option String) (sd ed : Option Int)
    (search : Option String) (sb so : String)
    (h : logEntryAttrs.contains sb = false) :
    get_multi db page page_size sev src sd ed search sb so
      = (((logQueryFiltered db sev src sd ed search).drop
            (((page - 1) * page_size).toNat)).take page_size.toNat,
         (logQueryFiltered db sev src sd ed search).length) := by
  have hmem : ¬ sb ∈ logEntryAttrs := by simpa using h
  simp [get_multi, sortedLogQuery, hmem]

/-- Witness for the amended C2 at a concrete store. -/
theorem unrecognized_sort_native_order_witness :
    logEntryAttrs.contains "nonexistent" = false ∧
    get_multi dbSample 1 50 none none none none none "nonexistent" "desc"
      = (((logQueryFiltered dbSample none none none none none).drop
            (((1 - 1) * 50 : Int).toNat)).take (50 : Int).toNat,
         (logQueryFiltered dbSample none none none none none).length) :=
  ⟨by decide,
   unrecognized_sort_native_order dbSample 1 50 none none none none none
     "nonexistent" "desc" (by decide)⟩

/-- C7: CSV export renders the fixed header followed by exactly one record
per matching entry; the records are the filtered rows ordered by timestamp
descending, so the data-row count equals the filtered total and the id
column is exactly the filtered id multiset. -/
theorem csv_export_contract (db : LogDb) (sev : Option SeverityLevel)
    (src : Option String) (sd ed : Option Int) :
    csvRecords (get_for_export db sev src sd ed)
      = csvHeader :: (get_for_export db sev src sd ed).map serializeLog ∧
    (get_for_export db sev src sd ed).length
      = (exportQueryFiltered db sev src sd ed).length ∧
    (get_for_export db sev src sd ed).Pairwise
      (fun a b => b.timestamp ≤ a.timestamp) ∧
    ((get_for_export db sev src sd ed).map LogEntry.id).Perm
      ((exportQueryFiltered db sev src sd ed).map LogEntry.id) := by
  refine ⟨rfl, ?_, ?_, ?_⟩
  · exact (orderBy_perm _ _).length_eq
  · have hp := pairwise_orderBy
      (fun a b : LogEntry => decide (b.timestamp ≤ a.timestamp))
      (fun a b => by
        simp only [decide_eq_true_eq]
        exact (le_total _ _).symm)
      (fun a b c h1 h2 => by
        simp only [decide_eq_true_eq] at h1 h2 ⊢
        exact le_trans h2 h1)
      (exportQueryFiltered db sev src sd ed)
    exact hp.imp (fun h => of_decide_eq_true h)
  · exact (orderBy_perm _ _).map LogEntry.id

theorem ceilDivNat_cast (a b : Nat) (hb : 0 < b) :
    ((ceilDivNat a b : Nat) : ℤ) = ⌈(a : ℚ) / (b : ℚ)⌉ := by
  have hd := Nat.div_add_mod (a + b - 1) b
  have hm := Nat.mod_lt (a + b - 1) hb
  have h1 : a ≤ ceilDivNat a b * b := by
    unfold ceilDivNat; rw [Nat.mul_comm]; omega
  have h2 : ceilDivNat a b * b < a + b := by
    unfold ceilDivNat; rw [Nat.mul_comm]; omega
  have hbq : (0 : ℚ) < (b : ℚ) := by exact_mod_cast hb
  rw [eq_comm, Int.ceil_eq_iff]
  constructor
  · rw [lt_div_iff₀ hbq]
    have h2q : (ceilDivNat a b : ℚ) * b < a + b := by exact_mod_cast h2
    push_cast
    nlinarith [h2q]
  · rw [div_le_iff₀ hbq]
    have h1q : (a : ℚ) ≤ (ceilDivNat a b : ℚ) * b := by exact_mod_cast h1
    push_cast
    linarith [h1q]

theorem invalid_date_range_iff (sd ed : Option Int) :
    invalid_date_range sd ed = true ↔
      ∃ s e, sd = some s ∧ ed = some e ∧ e < s := by
  cases sd <;> cases ed <;> simp [invalid_date_range]

theorem validate_log_query_params_empty_iff (page page_size : Int)
    (sd ed : Option Int) :
    validate_log_query_params page page_size sd ed = [] ↔
      (1 ≤ page ∧ 1 ≤ page_size ∧ invalid_date_range sd ed = false) := by
  unfold validate_log_query_params invalid_date_range
  cases sd <;> cases ed <;> split_ifs <;> simp_all <;> split_ifs <;>
    simp_all

theorem listRouteParamsOk_iff (page page_size : Int) (so : String) :
    listRouteParamsOk page page_size so = true ↔
      (1 ≤ page ∧ 1 ≤ page_size ∧ page_size ≤ MAX_PAGE_SIZE ∧
        (so = "asc" ∨ so = "desc")) := by
  unfold listRouteParamsOk
  simp [Bool.and_eq_true, Bool.or_eq_true, decide_eq_true_eq, and_assoc]

/-- C1: for every valid list request the result page is the window that
skips `(page-1)*page_size` entries of the ordered matching set and takes at
most `page_size`; the returned total counts all matching entries regardless
of pagination; and `total_pages` is `⌈total / page_size⌉` for positive
totals and `1` for an empty total. -/
theorem list_pagination_math (db : LogDb) (page page_size : Int)
    (sev : Option SeverityLevel) (src : Option String) (sd ed : Option Int)
    (search : Option String) (sb so : String)
    (hpage : 1 ≤ page) (hsize : 1 ≤ page_size)
    (hmax : page_size ≤ MAX_PAGE_SIZE)
    (hdate : invalid_date_range sd ed = false)
    (hso : so = "asc" ∨ so = "desc") :
    ∃ r, get_logs db page page_size sev src sd ed search sb so = .ok r ∧
      r.logs = ((sortedLogQuery db sev src sd ed search sb so).drop
          (((page - 1) * page_size).toNat)).take page_size.toNat ∧
      r.logs.length ≤ page_size.toNat ∧
      r.total = (logQueryFiltered db sev src sd ed search).length ∧
      (0 < r.total →
        (r.total_pages : ℤ) = ⌈(r.total : ℚ) / ((page_size : ℤ) : ℚ)⌉) ∧
      (r.total = 0 → r.total_pages = 1) := by
  have hroute : listRouteParamsOk page page_size so = true :=
    (listRouteParamsOk_iff page page_size so).mpr ⟨hpage, hsize, hmax, hso⟩
  have hval : validate_log_query_params page page_size sd ed = [] :=
    (validate_log_query_params_empty_iff page page_size sd ed).mpr
      ⟨hpage, hsize, hdate⟩
  unfold get_logs
  rw [if_neg (by simp [hroute]), if_neg (by simp [hval])]
  refine ⟨_, rfl, rfl, List.length_take_le _ _, rfl, ?_, ?_⟩
  · intro hpos
    rw [if_pos hpos, ceilDivNat_cast _ page_size.toNat (by omega)]
    have hcast : ((page_size.toNat : ℕ) : ℚ) = ((page_size : ℤ) : ℚ) := by
      exact_mod_cast congrArg (fun z : ℤ => (z : ℚ))
        (Int.toNat_of_nonneg (by omega : (0 : ℤ) ≤ page_size))
    rw [hcast]
  · intro h0
    simp only [] at h0
    simp [h0]

/-- C5: a list request fails with a validation failure, before any query
runs, exactly when `page < 1`, `page_size < 1`, `page_size` exceeds the
configured maximum, or both dates are supplied with start after end (equal
dates are accepted); the aggregation and export operations fail the same
way exactly when both dates are supplied with start after end. -/
theorem validation_gate (db : LogDb) (page page_size : Int)
    (sev : Option SeverityLevel) (src : Option String) (sd ed : Option Int)
    (search : Option String) (sb so : String)
    (hso : so = "asc" ∨ so = "desc") :
    ((get_logs db page page_size sev src sd ed search sb so).isOk = false ↔
      page < 1 ∨ page_size < 1 ∨ MAX_PAGE_SIZE < page_size ∨
        (∃ s e, sd = some s ∧ ed = some e ∧ e < s)) ∧
    ((get_log_aggregation db sd ed sev src).isOk = false ↔
      ∃ s e, sd = some s ∧ ed = some e ∧ e < s) ∧
    ((export_logs_csv db sev src sd ed).isOk = false ↔
      ∃ s e, sd = some s ∧ ed = some e ∧ e < s) := by
  have hdate := invalid_date_range_iff sd ed
  refine ⟨?_, ?_, ?_⟩
  · by_cases hr : listRouteParamsOk page page_size so = true
    · by_cases hv : validate_log_query_params page page_size sd ed = []
      · have hok : (get_logs db page page_size sev src sd ed search sb
            so).isOk = true := by
          unfold get_logs
          rw [if_neg (by simp [hr]), if_neg (by simp [hv])]
          rfl
        have hra := (listRouteParamsOk_iff page page_size so).mp hr
        have hva :=
          (validate_log_query_params_empty_iff page page_size sd ed).mp hv
        rw [hok]
        constructor
        · intro h
          exact absurd h (by decide)
        · rintro (h | h | h | ⟨s, e, rfl, rfl, hlt⟩)
          · exact absurd hra.1 (by omega)
          · exact absurd hra.2.1 (by omega)
          · exact absurd hra.2.2.1 (by omega)
          · have : invalid_date_range (some s) (some e) = true := by
              simp [invalid_date_range]
              omega
            rw [this] at hva
            exact absurd hva.2.2 (by decide)
      · have herr : (get_logs db page page_size sev src sd ed search sb
            so).isOk = false := by
          unfold get_logs
          rw [if_neg (by simp [hr]), if_pos hv]
          rfl
        rw [herr]
        constructor
        · intro _
          by_cases hp : page < 1
          · exact Or.inl hp
          by_cases hps : page_size < 1
          · exact Or.inr (Or.inl hps)
          have hinv : invalid_date_range sd ed = true := by
            cases hb : invalid_date_range sd ed
            · exact absurd ((validate_log_query_params_empty_iff
                page page_size sd ed).mpr ⟨by omega, by omega, hb⟩) hv
            · rfl
          exact Or.inr (Or.inr (Or.inr (hdate.mp hinv)))
        · intro _
          rfl
    · have herr : (get_logs db page page_size sev src sd ed search sb
          so).isOk = false := by
        unfold get_logs
        rw [if_pos hr]
        rfl
      rw [herr]
      constructor
      · intro _
        by_cases hp : page < 1
        · exact Or.inl hp
        by_cases hps : page_size < 1
        · exact Or.inr (Or.inl hps)
        by_cases hm : MAX_PAGE_SIZE < page_size
        · exact Or.inr (Or.inr (Or.inl hm))
        exact absurd ((listRouteParamsOk_iff page page_size so).mpr
          ⟨by omega, by omega, by omega, hso⟩) hr
      · intro _
        rfl
  · have ha : (get_log_aggregation db sd ed sev src).isOk = false ↔
        invalid_date_range sd ed = true := by
      unfold get_log_aggregation
      cases hb : invalid_date_range sd ed <;>
        simp [Except.isOk, Except.toBool]
    exact ha.trans hdate
  · have ha : (export_logs_csv db sev src sd ed).isOk = false ↔
        invalid_date_range sd ed = true := by
      unfold export_logs_csv
      cases hb : invalid_date_range sd ed <;>
        simp [Except.isOk, Except.toBool]
    exact ha.trans hdate

/-- Witness for C5 at concrete parameters. -/
theorem validation_gate_witness :
    (("desc" : String) = "asc" ∨ ("desc" : String) = "desc") ∧
    (((get_logs dbSample 0 50 none none (some 5) (some 5) none "timestamp"
        "desc").isOk = false ↔
      (0 : Int) < 1 ∨ (50 : Int) < 1 ∨ MAX_PAGE_SIZE < 50 ∨
        (∃ s e, (some 5 : Option Int) = some s ∧
          (some 5 : Option Int) = some e ∧ e < s)) ∧
    ((get_log_aggregation dbSample (some 5) (some 5) none none).isOk = false
      ↔ ∃ s e, (some 5 : Option Int) = some s ∧
          (some 5 : Option Int) = some e ∧ e < s) ∧
    ((export_logs_csv dbSample none none (some 5) (some 5)).isOk = false ↔
      ∃ s e, (some 5 : Option Int) = some s ∧
        (some 5 : Option Int) = some e ∧ e < s)) :=
  ⟨Or.inr rfl,
   validation_gate dbSample 0 50 none none (some 5) (some 5) none
     "timestamp" "desc" (Or.inr rfl)⟩

/-- Witness for C1 at concrete parameters. -/
theorem list_pagination_math_witness :
    ((1 : Int) ≤ 1 ∧ (1 : Int) ≤ 2 ∧ (2 : Int) ≤ MAX_PAGE_SIZE ∧
      invalid_date_range none none = false ∧
      (("desc" : String) = "asc" ∨ ("desc" : String) = "desc")) ∧
    (∃ r, get_logs dbSample 1 2 none none none none none "timestamp" "desc"
        = .ok r ∧
      r.logs = ((sortedLogQuery dbSample none none none none none
          "timestamp" "desc").drop (((1 - 1) * 2 : Int).toNat)).take
            (2 : Int).toNat ∧
      r.logs.length ≤ (2 : Int).toNat ∧
      r.total = (logQueryFiltered dbSample none none none none none).length ∧
      (0 < r.total →
        (r.total_pages : ℤ) = ⌈(r.total : ℚ) / (((2 : Int) : ℤ) : ℚ)⌉) ∧
      (r.total = 0 → r.total_pages = 1)) :=
  ⟨⟨by decide, by decide, by decide, by decide, Or.inr rfl⟩,
   list_pagination_math dbSample 1 2 none none none none none "timestamp"
     "desc" (by decide) (by decide) (by decide) (by decide) (Or.inr rfl)⟩

/-- Counterexample for C6: a chart-series request with
`start_date > end_date` does not fail — the handler runs the (empty) query
and returns an empty series with success. -/
theorem chart_no_date_validation_counterexample :
    get_chart_data dbSample (some 100) (some 0) none none "day"
      = .ok ⟨[], "day", some 100, some 0, none, none⟩ := rfl

/-- C6 as amended: the chart-series handler performs no date-range
validation; when both dates are supplied with start after end it succeeds
and returns an empty data series, because the two date bounds are
jointly unsatisfiable. -/
theorem chart_invalid_range_succeeds (db : LogDb) (s e : Int)
    (sev : Option SeverityLevel) (src : Option String) (gb : String)
    (hgb : gb ∈ groupByValues) (hlt : e < s) :
    ∃ r, get_chart_data db (some s) (some e) sev src gb = .ok r ∧
      r.data = [] := by
  have hcontains : groupByValues.contains gb = true := by
    have hc : gb = "hour" ∨ gb = "day" ∨ gb = "week" ∨ gb = "month" := by
      simpa [groupByValues] using hgb
    rcases hc with rfl | rfl | rfl | rfl <;> rfl
  have hbase : aggBaseQuery db (some s) (some e) sev src = [] := by
    unfold aggBaseQuery
    have h2 : (db.filter (fun x => decide (s ≤ x.timestamp))).filter
        (fun x => decide (x.timestamp ≤ e)) = [] := by
      rw [List.filter_eq_nil_iff]
      intro a ha
      have h1 := (List.mem_filter.mp ha).2
      simp only [decide_eq_true_eq] at h1 ⊢
      omega
    cases sev <;> cases src <;> simp [h2]
  unfold get_chart_data
  rw [if_neg (by simpa using hgb)]
  refine ⟨_, rfl, ?_⟩
  show format_chart_data (chartRows db (some s) (some e) sev src gb) = []
  unfold chartRows
  rw [hbase]
  simp [format_chart_data, orderBy]

/-- Witness for the amended C6 at concrete dates. -/
theorem chart_invalid_range_succeeds_witness :
    (("day" : String) ∈ groupByValues ∧ (0 : Int) < 100) ∧
    (∃ r, get_chart_data dbSample (some 100) (some 0) none none "day"
        = .ok r ∧ r.data = []) :=
  ⟨⟨by decide, by decide⟩,
   chart_invalid_range_succeeds dbSample 100 0 none none "day" (by decide)
     (by decide)⟩

/-- C4: every chart bucket carries a count for each of the five severity
levels equal to the number of filtered entries of that severity in the
bucket (zero when absent), the bucket total is the sum of those five
counts, and the totals of all buckets sum to the aggregation's
`total_logs` under the same filter set. -/
theorem chart_bucket_totals (db : LogDb) (sd ed : Option Int)
    (sev : Option SeverityLevel) (src : Option String) (gb : String)
    (hgb : gb ∈ groupByValues) :
    ∃ r, get_chart_data db sd ed sev src gb = .ok r ∧
      (∀ pt ∈ r.data, ∀ s, severityCell pt s
        = (aggBaseQuery db sd ed sev src).countP (fun x =>
            decide (get_time_group_expression gb x.timestamp = pt.timestamp)
              && decide (x.severity = s))) ∧
      (∀ pt ∈ r.data, pt.total
        = pt.DEBUG + pt.INFO + pt.WARNING + pt.ERROR + pt.CRITICAL) ∧
      ((r.data.map ChartPoint.total).sum
        = (get_aggregation_data db sd ed sev src).total_logs) := by
  have hcontains : groupByValues.contains gb = true := by
    have hc : gb = "hour" ∨ gb = "day" ∨ gb = "week" ∨ gb = "month" := by
      simpa [groupByValues] using hgb
    rcases hc with rfl | rfl | rfl | rfl <;> rfl
  have hnodup : (orderBy (fun a b : Int => decide (a ≤ b))
      (((aggBaseQuery db sd ed sev src).map
        (fun x => get_time_group_expression gb x.timestamp)).dedup)).Nodup :=
    (orderBy_perm _ _).symm.nodup (List.nodup_dedup _)
  have hnz : ∀ p ∈ orderBy (fun a b : Int => decide (a ≤ b))
      (((aggBaseQuery db sd ed sev src).map
        (fun x => get_time_group_expression gb x.timestamp)).dedup),
      ∃ s, (aggBaseQuery db sd ed sev src).countP (fun x =>
        decide (get_time_group_expression gb x.timestamp = p)
          && decide (x.severity = s)) ≠ 0 := by
    intro p hp
    have hp2 : p ∈ ((aggBaseQuery db sd ed sev src).map
        (fun x => get_time_group_expression gb x.timestamp)).dedup :=
      (orderBy_perm _ _).mem_iff.mp hp
    rcases List.mem_map.mp (List.mem_dedup.mp hp2) with ⟨x, hx, hxt⟩
    refine ⟨x.severity, ?_⟩
    have hpos : 0 < (aggBaseQuery db sd ed sev src).countP (fun y =>
        decide (get_time_group_expression gb y.timestamp = p)
          && decide (y.severity = x.severity)) :=
      List.countP_pos_iff.mpr ⟨x, hx, by simp [hxt]⟩
    omega
  have hdata : format_chart_data (chartRows db sd ed sev src gb)
      = (orderBy (fun a b : Int => decide (a ≤ b))
          (((aggBaseQuery db sd ed sev src).map
            (fun x => get_time_group_expression gb x.timestamp)).dedup)).map
          (fun p => severityLevels.foldl (fun q s =>
            if (aggBaseQuery db sd ed sev src).countP (fun x =>
                decide (get_time_group_expression gb x.timestamp = p)
                  && decide (x.severity = s)) = 0 then q
            else applyCell q s ((aggBaseQuery db sd ed sev src).countP
              (fun x => decide (get_time_group_expression gb x.timestamp = p)
                && decide (x.severity = s)))) (emptyChartPoint p)) :=
    format_flatMap (fun p s =>
        (aggBaseQuery db sd ed sev src).countP (fun x : LogEntry =>
          decide (get_time_group_expression gb x.timestamp = p)
            && decide (x.severity = s)))
      (orderBy (fun a b : Int => decide (a ≤ b))
        (((aggBaseQuery db sd ed sev src).map
          (fun x : LogEntry => get_time_group_expression gb x.timestamp)).dedup))
      hnodup hnz
  unfold get_chart_data
  rw [if_neg (by simpa using hgb)]
  refine ⟨_, rfl, ?_, ?_, ?_⟩
  · intro pt hpt s
    rw [hdata] at hpt
    rcases List.mem_map.mp hpt with ⟨p, hpmem, rfl⟩
    have hs := blockPoint_spec (fun s =>
      (aggBaseQuery db sd ed sev src).countP (fun x =>
        decide (get_time_group_expression gb x.timestamp = p)
          && decide (x.severity = s))) p
    rw [hs.1]
    exact hs.2.1 s
  · intro pt hpt
    rw [hdata] at hpt
    rcases List.mem_map.mp hpt with ⟨p, hpmem, rfl⟩
    have hs := blockPoint_spec (fun s =>
      (aggBaseQuery db sd ed sev src).countP (fun x =>
        decide (get_time_group_expression gb x.timestamp = p)
          && decide (x.severity = s))) p
    have h1 := hs.2.1 SeverityLevel.DEBUG
    have h2 := hs.2.1 SeverityLevel.INFO
    have h3 := hs.2.1 SeverityLevel.WARNING
    have h4 := hs.2.1 SeverityLevel.ERROR
    have h5 := hs.2.1 SeverityLevel.CRITICAL
    simp only [severityCell] at h1 h2 h3 h4 h5
    rw [hs.2.2]
    omega
  · show ((format_chart_data (chartRows db sd ed sev src gb)).map
        ChartPoint.total).sum = (get_aggregation_data db sd ed sev src).total_logs
    rw [hdata, List.map_map]
    have hinner : ∀ p ∈ orderBy (fun a b : Int => decide (a ≤ b))
        (((aggBaseQuery db sd ed sev src).map
          (fun x => get_time_group_expression gb x.timestamp)).dedup),
        (ChartPoint.total ∘ (fun p => severityLevels.foldl (fun q s =>
          if (aggBaseQuery db sd ed sev src).countP (fun x =>
              decide (get_time_group_expression gb x.timestamp = p)
                && decide (x.severity = s)) = 0 then q
          else applyCell q s ((aggBaseQuery db sd ed sev src).countP
            (fun x => decide (get_time_group_expression gb x.timestamp = p)
              && decide (x.severity = s)))) (emptyChartPoint p))) p
        = (aggBaseQuery db sd ed sev src).countP (fun x =>
            decide (get_time_group_expression gb x.timestamp = p)) := by
      intro p _
      have hs := blockPoint_spec (fun s =>
        (aggBaseQuery db sd ed sev src).countP (fun x =>
          decide (get_time_group_expression gb x.timestamp = p)
            && decide (x.severity = s))) p
      have hpart := countP_severity_partition
        (fun x => decide (get_time_group_expression gb x.timestamp = p))
        (aggBaseQuery db sd ed sev src)
      simp only [severityLevels, List.map_cons, List.map_nil, List.sum_cons,
        List.sum_nil] at hpart
      show (severityLevels.foldl (fun q s =>
        if (aggBaseQuery db sd ed sev src).countP (fun x =>
            decide (get_time_group_expression gb x.timestamp = p)
              && decide (x.severity = s)) = 0 then q
        else applyCell q s ((aggBaseQuery db sd ed sev src).countP
          (fun x => decide (get_time_group_expression gb x.timestamp = p)
            && decide (x.severity = s)))) (emptyChartPoint p)).total
        = (aggBaseQuery db sd ed sev src).countP (fun x =>
            decide (get_time_group_expression gb x.timestamp = p))
      rw [hs.2.2]
      omega
    rw [List.map_congr_left hinner]
    have hperm := (orderBy_perm (fun a b : Int => decide (a ≤ b))
        (((aggBaseQuery db sd ed sev src).map
          (fun x => get_time_group_expression gb x.timestamp)).dedup)).map
      (fun p => (aggBaseQuery db sd ed sev src).countP (fun x =>
        decide (get_time_group_expression gb x.timestamp = p)))
    rw [hperm.sum_eq]
    exact sum_countP_dedup
      (fun x => get_time_group_expression gb x.timestamp)
      (aggBaseQuery db sd ed sev src)

/-- Witness for C4 at a concrete store, bucketing by day. -/
theorem chart_bucket_totals_witness :
    (("day" : String) ∈ groupByValues) ∧
    (∃ r, get_chart_data dbSample none none none none "day" = .ok r ∧
      (∀ pt ∈ r.data, ∀ s, severityCell pt s
        = (aggBaseQuery dbSample none none none none).countP (fun x =>
            decide (get_time_group_expression "day" x.timestamp
              = pt.timestamp) && decide (x.severity = s))) ∧
      (∀ pt ∈ r.data, pt.total
        = pt.DEBUG + pt.INFO + pt.WARNING + pt.ERROR + pt.CRITICAL) ∧
      ((r.data.map ChartPoint.total).sum
        = (get_aggregation_data dbSample none none none none).total_logs)) :=
  ⟨by decide, chart_bucket_totals dbSample none none none none "day"
    (by decide)⟩

/-- Source string of 101 characters, inside the validator's 255-character
limit but above the schema's 100-character cap. -/
def longSource : String := String.mk (List.replicate 101 's')

/-- Counterexample for C8: a create request whose source has 101 characters
(well within the claimed 1-255 range, non-empty after trimming) is rejected
by the pydantic schema layer, which caps source at 100 characters, before
the write validator ever runs. -/
theorem create_schema_limit_counterexample :
    longSource.length = 101 ∧ stripString longSource ≠ "" ∧
    longSource.length ≤ 255 ∧
    create_log [] 0 1 "hello" SeverityLevel.INFO longSource none
      = .error ApiFailure.validation := by
  refine ⟨by decide, by decide, by decide, ?_⟩
  rfl

/-- C8 as amended: every create request whose message is 1-1000 characters
and non-empty after trimming, whose source is 1-100 characters and
non-empty after trimming, whose severity is one of the five levels, and
whose timestamp (if supplied) is not in the future, passes both the schema
layer and the write validator and is stored; the same field bounds are
accepted on update of an existing entry. (The schema caps of 1000/100 gate
all writes before the validator's 10000/255 limits.) -/
theorem create_update_accept_bounds (db : LogDb) (now : Int) (nextId : Nat)
    (message source : String) (sev : SeverityLevel) (ts : Option Int)
    (hm1 : 1 ≤ message.length) (hm2 : message.length ≤ 1000)
    (hm3 : stripString message ≠ "")
    (hs1 : 1 ≤ source.length) (hs2 : source.length ≤ 100)
    (hs3 : stripString source ≠ "")
    (hts : ∀ t, ts = some t → t ≤ now) :
    (create_log db now nextId message sev source ts
      = .ok (db ++ [⟨nextId, ts.getD now, message, sev, source, now, now⟩],
             ⟨nextId, ts.getD now, message, sev, source, now, now⟩)) ∧
    (∀ log_id : Nat, 1 ≤ log_id →
      ∀ e0, db.find? (fun x => decide (x.id = log_id)) = some e0 →
      (update_log db now log_id
        ⟨some message, some sev, some source, ts⟩).isOk = true) := by
  have hschema : logCreateSchemaOk message source = true := by
    simp only [logCreateSchemaOk, Bool.and_eq_true, decide_eq_true_eq]
    exact ⟨⟨⟨hm1, hm2⟩, hs1⟩, hs2⟩
  have hvc : validate_log_creation now message source ts = [] := by
    simp only [validate_log_creation]
    rw [if_neg hm3, if_neg (by omega : ¬ message.length > 10000)]
    rw [if_neg hs3, if_neg (by omega : ¬ source.length > 255)]
    cases ts with
    | none => rfl
    | some t =>
        show (if t > now then ([] : List String)
          ++ ["Timestamp cannot be in the future"] else []) = []
        rw [if_neg (show ¬ t > now by have := hts t rfl; omega)]
  constructor
  · simp only [create_log]
    rw [if_neg (by simp [hschema]), if_neg (by simp [hvc])]
  · intro log_id hid e0 hfind
    have hus : logUpdateSchemaOk
        ⟨some message, some sev, some source, ts⟩ = true := by
      simp only [logUpdateSchemaOk, Bool.and_eq_true, decide_eq_true_eq]
      exact ⟨⟨hm1, hm2⟩, hs1, hs2⟩
    have hvu : validate_log_update now (log_id : Int)
        ⟨some message, some sev, some source, ts⟩ = [] := by
      simp only [validate_log_update]
      rw [if_neg (show ¬ (log_id : Int) ≤ 0 by omega)]
      rw [if_neg hm3, if_neg (by omega : ¬ message.length > 10000)]
      rw [if_neg hs3, if_neg (by omega : ¬ source.length > 255)]
      cases ts with
      | none => rfl
      | some t =>
          show (if t > now then ([] : List String)
            ++ ["Timestamp cannot be in the future"] else []) = []
          rw [if_neg (show ¬ t > now by have := hts t rfl; omega)]
    have hcu : ∃ r, crud_update db now log_id
        ⟨some message, some sev, some source, ts⟩ = some r := by
      unfold crud_update
      rw [hfind]
      exact ⟨_, rfl⟩
    rcases hcu with ⟨r, hr⟩
    simp only [update_log]
    rw [if_neg (by simp [hus]), if_neg (by simp [hvu]), hr]
    rfl

/-- Witness for the amended C8 at a concrete request. -/
theorem create_update_accept_bounds_witness :
    (1 ≤ ("hello" : String).length ∧ ("hello" : String).length ≤ 1000 ∧
      stripString "hello" ≠ "" ∧
      1 ≤ ("svc" : String).length ∧ ("svc" : String).length ≤ 100 ∧
      stripString "svc" ≠ "") ∧
    ((create_log dbSample 7 3 "hello" SeverityLevel.INFO "svc" none
      = .ok (dbSample ++ [⟨3, (none : Option Int).getD 7, "hello",
          SeverityLevel.INFO, "svc", 7, 7⟩],
        ⟨3, (none : Option Int).getD 7, "hello", SeverityLevel.INFO,
          "svc", 7, 7⟩)) ∧
    (∀ log_id : Nat, 1 ≤ log_id →
      ∀ e0, dbSample.find? (fun x => decide (x.id = log_id)) = some e0 →
      (update_log dbSample 7 log_id
        ⟨some "hello", some SeverityLevel.INFO, some "svc", none⟩).isOk
          = true)) :=
  ⟨⟨by decide, by decide, by decide, by decide, by decide, by decide⟩,
   create_update_accept_bounds dbSample 7 3 "hello" "svc" SeverityLevel.INFO
     none (by decide) (by decide) (by decide) (by decide) (by decide)
     (by decide) (fun t h => nomatch h)⟩

end LogsDashboard
